import Mathlib

/-!
The transactional transfer executor of simple_bank_go (`db/sqlc/store.go`).

A shallow embedding of `execTx`, `TransferTx` and `addMoney`, together with a model of
the collaborators they drive (the generated row accessor and the SQL transaction
handle), and the properties of the transfer operation proved over it.

Conventions.
* Go `int64` values are integers in the range `[-2^63, 2^63)`; the only arithmetic the Go
  code performs on them is the unary minus of `-arg.Amount`, modelled by `neg64`, which
  wraps as Go does. The comparison `<` of two `int64` is the comparison of integers.
* A Go result `(T, error)` is a pair `T × Option Error`; a failed accessor call returns
  the zero value of `T`.
* The closure passed to `execTx` writes to the captured variable `result`; the captured
  variable is threaded explicitly as a state of type `σ`.
* The store keeps balances in a 64-bit column and enforces that no balance becomes
  negative. Beyond that it may reject any statement: the environment `Env` carries the
  failure of `BeginTx`, `Rollback` and `Commit` and an arbitrary, state dependent
  rejection of each accessor call. Every theorem quantifies over all environments.
-/

namespace SimpleBank

/-! ## Machine integers -/

/-- The least `int64`, `-2^63`. -/
def minInt64 : Int := -9223372036854775808

/-- The greatest `int64`, `2^63 - 1`. -/
def maxInt64 : Int := 9223372036854775807

/-- Membership in the range of Go's `int64` (and of a `bigint` column). -/
def isInt64 (x : Int) : Prop := minInt64 ≤ x ∧ x ≤ maxInt64

instance (x : Int) : Decidable (isInt64 x) :=
  inferInstanceAs (Decidable (minInt64 ≤ x ∧ x ≤ maxInt64))

/-- Reduction of an integer to the `int64` that has the same low 64 bits. -/
def wrap64 (x : Int) : Int :=
  (x + 9223372036854775808) % 18446744073709551616 - 9223372036854775808

/-- Go's unary minus on `int64`: `-x`, wrapping at the least value. -/
def neg64 (x : Int) : Int := wrap64 (-x)

/-! ## Rows and parameters -/

/-- A Go `error`, identified with its message. -/
structure Error where
  msg : String
deriving DecidableEq, Repr

/-- Modelled from the spec: the `Account` row type (declared in the generated
`models.go`, which is not part of the sources): identity, owner, balance, currency. -/
structure Account where
  ID : Int
  Owner : String
  Balance : Int
  Currency : String
deriving DecidableEq, Repr

/-- Modelled from the spec: the `Entry` row type (generated `models.go`): identity,
owning account, signed amount. -/
structure Entry where
  ID : Int
  AccountID : Int
  Amount : Int
deriving DecidableEq, Repr

/-- Modelled from the spec: the `Transfer` row type (generated `models.go`): identity,
source account, destination account, amount. -/
structure Transfer where
  ID : Int
  FromAccountID : Int
  ToAccountID : Int
  Amount : Int
deriving DecidableEq, Repr

/-- The zero value of `Account`. -/
def Account.zero : Account := ⟨0, "", 0, ""⟩

/-- The zero value of `Entry`. -/
def Entry.zero : Entry := ⟨0, 0, 0⟩

/-- The zero value of `Transfer`. -/
def Transfer.zero : Transfer := ⟨0, 0, 0, 0⟩

/-- Modelled from the spec: the parameter struct of `CreateTransfer` (generated
`transfer.sql.go`), with the three fields `TransferTx` fills in. -/
structure CreateTransferParams where
  FromAccountID : Int
  ToAccountID : Int
  Amount : Int
deriving DecidableEq, Repr

/-- Modelled from the spec: the parameter struct of `CreateEntry` (generated
`entry.sql.go`), with the two fields `TransferTx` fills in. -/
structure CreateEntryParams where
  AccountID : Int
  Amount : Int
deriving DecidableEq, Repr

/-- Modelled from the spec: the parameter struct of `AddAccountBalance` (generated
`account.sql.go`), with the two fields `addMoney` fills in. -/
structure AddAccountBalanceParams where
  ID : Int
  Amount : Int
deriving DecidableEq, Repr

/-- The struct `TransferTxResult` of `store.go`. -/
structure TransferTxResult where
  Transfer : Transfer
  FromAccount : Account
  ToAccount : Account
  FromEntry : Entry
  ToEntry : Entry
deriving DecidableEq, Repr

/-- The zero value of `TransferTxResult` (`var result TransferTxResult`). -/
def TransferTxResult.zero : TransferTxResult :=
  ⟨Transfer.zero, Account.zero, Account.zero, Entry.zero, Entry.zero⟩

/-! ## The store -/

/-- Modelled from the spec: the persisted state, the three tables `accounts`, `entries`
and `transfers` (the schema is not part of the sources). -/
structure Ledger where
  accounts : List Account
  entries : List Entry
  transfers : List Transfer
deriving DecidableEq, Repr

/-- A statement sent through the accessor. -/
inductive Query where
  | createTransfer (arg : CreateTransferParams)
  | createEntry (arg : CreateEntryParams)
  | addAccountBalance (arg : AddAccountBalanceParams)
deriving DecidableEq, Repr

/-- A row returned by the accessor. -/
inductive Row where
  | transfer (t : Transfer)
  | entry (e : Entry)
  | account (a : Account)
deriving DecidableEq, Repr

/-- One accessor call as an instrumented store sees it: the statement, the row handed
back and the error, if any. -/
structure Call where
  query : Query
  ret : Row
  err : Option Error
deriving DecidableEq, Repr

/-- A call received by the SQL driver. -/
inductive Event where
  | beginTx
  | query (c : Call)
  | rollback
  | commit
deriving DecidableEq, Repr

/-- Modelled from the spec: the behaviour of the external collaborators that the code
does not determine. `beginErr`, `rollbackErr` and `commitErr` are the outcomes of
`BeginTx`, `Rollback` and `Commit`; `reject n q l` is the store's verdict on the `n`-th
statement of a transaction when the statement is `q` and the transaction sees the tables
`l` (a constraint violation, a cancelled context, a lost connection); the last two
fields give the committed tables left behind by a rollback or a commit that failed, as a
function of the tables before the transaction and of its working copy. -/
structure Env where
  beginErr : Option Error
  reject : Nat → Query → Ledger → Option Error
  rollbackErr : Option Error
  commitErr : Option Error
  afterFailedRollback : Ledger → Ledger → Ledger
  afterFailedCommit : Ledger → Ledger → Ledger

/-- The database behind `store.db`: the committed tables and the calls the driver has
received, oldest first. -/
structure DB where
  tables : Ledger
  trace : List Event
deriving DecidableEq, Repr

/-- Modelled from the spec: the transaction-bound accessor `*Queries` (generated
`db.go`): the tables as the transaction sees them and the calls issued through it. -/
structure Queries where
  ledger : Ledger
  calls : List Call
deriving DecidableEq, Repr

/-- Modelled from the spec: `New(tx)` (generated `db.go`) binds a fresh accessor to the
transaction, which starts from the committed tables. -/
def New (tables : Ledger) : Queries := ⟨tables, []⟩

/-- The error of a single-row statement that matched no row (`sql.ErrNoRows`). -/
def ErrNoRows : Error := ⟨"sql: no rows in result set"⟩

/-- The error of a `bigint` result that does not fit in 64 bits. -/
def ErrOutOfRange : Error := ⟨"bigint out of range"⟩

/-- The error of a write that the store's non-negative-balance constraint rejects. -/
def ErrNegativeBalance : Error := ⟨"new row violates check constraint on balance"⟩

/-- Record a failed call: the tables are untouched. -/
def Queries.failed (q : Queries) (qu : Query) (zero : Row) (e : Error) : Queries :=
  { q with calls := q.calls ++ [⟨qu, zero, some e⟩] }

/-- Modelled from the spec: `create-transfer(from id, to id, amount) → Transfer row`
(generated `transfer.sql.go`). The new row takes the next identity and is appended to
the table. -/
def CreateTransfer (env : Env) (q : Queries) (arg : CreateTransferParams) :
    (Transfer × Option Error) × Queries :=
  match env.reject q.calls.length (.createTransfer arg) q.ledger with
  | some e => ((Transfer.zero, some e), q.failed (.createTransfer arg) (.transfer Transfer.zero) e)
  | none =>
    let t : Transfer :=
      ⟨(q.ledger.transfers.length : Int) + 1, arg.FromAccountID, arg.ToAccountID, arg.Amount⟩
    ((t, none),
      { ledger := { q.ledger with transfers := q.ledger.transfers ++ [t] },
        calls := q.calls ++ [⟨.createTransfer arg, .transfer t, none⟩] })

/-- Modelled from the spec: `create-entry(account id, signed amount) → Entry row`
(generated `entry.sql.go`). The new row takes the next identity and is appended to the
table. -/
def CreateEntry (env : Env) (q : Queries) (arg : CreateEntryParams) :
    (Entry × Option Error) × Queries :=
  match env.reject q.calls.length (.createEntry arg) q.ledger with
  | some e => ((Entry.zero, some e), q.failed (.createEntry arg) (.entry Entry.zero) e)
  | none =>
    let e : Entry := ⟨(q.ledger.entries.length : Int) + 1, arg.AccountID, arg.Amount⟩
    ((e, none),
      { ledger := { q.ledger with entries := q.ledger.entries ++ [e] },
        calls := q.calls ++ [⟨.createEntry arg, .entry e, none⟩] })

/-- The row update behind `AddAccountBalance`: add `d` to the balance of the row with
identity `id` and hand back the updated row and table; `none` when no row matches. The
identity is the primary key, so at most one row matches: the first one is updated. -/
def adjust (id d : Int) : List Account → Option (Account × List Account)
  | [] => none
  | a :: rest =>
    if a.ID = id then
      some ({ a with Balance := a.Balance + d }, { a with Balance := a.Balance + d } :: rest)
    else
      match adjust id d rest with
      | none => none
      | some (r, rest') => some (r, a :: rest')

/-- Modelled from the spec: `adjust-account-balance(account id, signed delta) → updated
Account row` (generated `account.sql.go`): sets `balance := balance + delta` on the row
and returns the updated row. It fails when the store rejects the statement, when no row
has the identity, when the new balance does not fit the 64-bit column, and when the new
balance is negative: the balance is never negative as a result of these operations,
which the store's constraint enforces. -/
def AddAccountBalance (env : Env) (q : Queries) (arg : AddAccountBalanceParams) :
    (Account × Option Error) × Queries :=
  match env.reject q.calls.length (.addAccountBalance arg) q.ledger with
  | some e =>
    ((Account.zero, some e), q.failed (.addAccountBalance arg) (.account Account.zero) e)
  | none =>
    match adjust arg.ID arg.Amount q.ledger.accounts with
    | none =>
      ((Account.zero, some ErrNoRows),
        q.failed (.addAccountBalance arg) (.account Account.zero) ErrNoRows)
    | some (a, accounts') =>
      if isInt64 a.Balance then
        if 0 ≤ a.Balance then
          ((a, none),
            { ledger := { q.ledger with accounts := accounts' },
              calls := q.calls ++ [⟨.addAccountBalance arg, .account a, none⟩] })
        else
          ((Account.zero, some ErrNegativeBalance),
            q.failed (.addAccountBalance arg) (.account Account.zero) ErrNegativeBalance)
      else
        ((Account.zero, some ErrOutOfRange),
          q.failed (.addAccountBalance arg) (.account Account.zero) ErrOutOfRange)

/-! ## `store.go` -/

/-- The error built by `fmt.Errorf("tx err: %v, rb err: %v", err, rbErr)`. -/
def Errorf (err rbErr : Error) : Error :=
  ⟨"tx err: " ++ err.msg ++ ", rb err: " ++ rbErr.msg⟩

/-- The method `SQLStore.execTx`: run `fn` inside a database transaction. `s` is the
state of the variables `fn` captures. -/
def execTx {σ : Type} (env : Env) (db : DB)
    (fn : Queries → σ → (Option Error × Queries) × σ) (s : σ) : (Option Error × DB) × σ :=
  match env.beginErr with
  | some err => ((some err, { db with trace := db.trace ++ [Event.beginTx] }), s)
  | none =>
    let q := New db.tables
    let r := fn q s
    let err := r.1.1
    let q' := r.1.2
    let tr := db.trace ++ [Event.beginTx] ++ q'.calls.map Event.query
    match err with
    | some err =>
      match env.rollbackErr with
      | some rbErr =>
        ((some (Errorf err rbErr),
          { tables := env.afterFailedRollback db.tables q'.ledger,
            trace := tr ++ [Event.rollback] }), r.2)
      | none => ((some err, { tables := db.tables, trace := tr ++ [Event.rollback] }), r.2)
    | none =>
      match env.commitErr with
      | some cErr =>
        ((some cErr,
          { tables := env.afterFailedCommit db.tables q'.ledger,
            trace := tr ++ [Event.commit] }), r.2)
      | none => ((none, { tables := q'.ledger, trace := tr ++ [Event.commit] }), r.2)

/-- The function `addMoney`: two balance adjustments, in the order given. The named
results `account1`, `account2`, `err` are returned as they stand at each `return`. -/
def addMoney (env : Env) (q : Queries) (accountID1 amount1 accountID2 amount2 : Int) :
    (Account × Account × Option Error) × Queries :=
  let r1 := AddAccountBalance env q ⟨accountID1, amount1⟩
  match r1.1.2 with
  | some err => ((r1.1.1, Account.zero, some err), r1.2)
  | none =>
    let r2 := AddAccountBalance env r1.2 ⟨accountID2, amount2⟩
    ((r1.1.1, r2.1.1, r2.1.2), r2.2)

/-- The closure that `TransferTx` hands to `execTx`; `result` is the captured variable. -/
def transferFn (env : Env) (arg : CreateTransferParams) (q : Queries)
    (result : TransferTxResult) : (Option Error × Queries) × TransferTxResult :=
  let r1 := CreateTransfer env q ⟨arg.FromAccountID, arg.ToAccountID, arg.Amount⟩
  let result := { result with Transfer := r1.1.1 }
  match r1.1.2 with
  | some err => ((some err, r1.2), result)
  | none =>
    let r2 := CreateEntry env r1.2 ⟨arg.FromAccountID, neg64 arg.Amount⟩
    let result := { result with FromEntry := r2.1.1 }
    match r2.1.2 with
    | some err => ((some err, r2.2), result)
    | none =>
      let r3 := CreateEntry env r2.2 ⟨arg.ToAccountID, arg.Amount⟩
      let result := { result with ToEntry := r3.1.1 }
      match r3.1.2 with
      | some err => ((some err, r3.2), result)
      | none =>
        if arg.FromAccountID < arg.ToAccountID then
          let r4 := addMoney env r3.2 arg.FromAccountID (neg64 arg.Amount)
            arg.ToAccountID arg.Amount
          ((r4.1.2.2, r4.2), { result with FromAccount := r4.1.1, ToAccount := r4.1.2.1 })
        else
          let r4 := addMoney env r3.2 arg.ToAccountID arg.Amount
            arg.FromAccountID (neg64 arg.Amount)
          ((r4.1.2.2, r4.2), { result with ToAccount := r4.1.1, FromAccount := r4.1.2.1 })

/-- The method `SQLStore.TransferTx`. -/
def TransferTx (env : Env) (db : DB) (arg : CreateTransferParams) :
    (TransferTxResult × Option Error) × DB :=
  let r := execTx env db (transferFn env arg) TransferTxResult.zero
  ((r.2, r.1.1), r.1.2)

/-! ## Observations used by the statements -/

/-- The balance of the account with identity `id`, if the table has one. -/
def balanceOf : List Account → Int → Option Int
  | [], _ => none
  | a :: rest, id => if a.ID = id then some a.Balance else balanceOf rest id

/-- The sum of all balances of the table. -/
def totalBalance (accounts : List Account) : Int := (accounts.map (·.Balance)).sum

/-- The calls a run of `TransferTx` issued through the accessor, in order. -/
def issued (env : Env) (db : DB) (arg : CreateTransferParams) : List Call :=
  ((TransferTx env db arg).2.trace.drop db.trace.length).filterMap
    (fun ev => match ev with
      | Event.query c => some c
      | _ => none)

/-- The balance adjustments among a list of calls: parameters, returned row, error. -/
def adjustments (calls : List Call) : List (AddAccountBalanceParams × Row × Option Error) :=
  calls.filterMap (fun c => match c.query with
    | Query.addAccountBalance p => some (p, c.ret, c.err)
    | _ => none)

/-- The row `CreateTransfer` inserts for `arg` into the tables `l`. -/
def transferRow (l : Ledger) (arg : CreateTransferParams) : Transfer :=
  ⟨(l.transfers.length : Int) + 1, arg.FromAccountID, arg.ToAccountID, arg.Amount⟩

/-- The row the first `CreateEntry` of a transfer inserts: the debit of the source. -/
def fromEntryRow (l : Ledger) (arg : CreateTransferParams) : Entry :=
  ⟨(l.entries.length : Int) + 1, arg.FromAccountID, neg64 arg.Amount⟩

/-- The row the second `CreateEntry` of a transfer inserts: the credit of the
destination. -/
def toEntryRow (l : Ledger) (arg : CreateTransferParams) : Entry :=
  ⟨((l.entries ++ [fromEntryRow l arg]).length : Int) + 1, arg.ToAccountID, arg.Amount⟩

/-- The parameters of the first `AddAccountBalance` that `TransferTx` has `addMoney`
issue (the first pair of arguments at the call site of the branch taken). -/
def firstAdjustment (arg : CreateTransferParams) : AddAccountBalanceParams :=
  if arg.FromAccountID < arg.ToAccountID then ⟨arg.FromAccountID, neg64 arg.Amount⟩
  else ⟨arg.ToAccountID, arg.Amount⟩

/-- The parameters of the second `AddAccountBalance` that `TransferTx` has `addMoney`
issue (the second pair of arguments at the call site of the branch taken). -/
def secondAdjustment (arg : CreateTransferParams) : AddAccountBalanceParams :=
  if arg.FromAccountID < arg.ToAccountID then ⟨arg.ToAccountID, arg.Amount⟩
  else ⟨arg.FromAccountID, neg64 arg.Amount⟩

/-- The record of the successful `CreateTransfer` call of a transfer. -/
def transferCall (l : Ledger) (arg : CreateTransferParams) : Call :=
  ⟨.createTransfer ⟨arg.FromAccountID, arg.ToAccountID, arg.Amount⟩,
    .transfer (transferRow l arg), none⟩

/-- The record of the successful first `CreateEntry` call of a transfer. -/
def fromEntryCall (l : Ledger) (arg : CreateTransferParams) : Call :=
  ⟨.createEntry ⟨arg.FromAccountID, neg64 arg.Amount⟩, .entry (fromEntryRow l arg), none⟩

/-- The record of the successful second `CreateEntry` call of a transfer. -/
def toEntryCall (l : Ledger) (arg : CreateTransferParams) : Call :=
  ⟨.createEntry ⟨arg.ToAccountID, arg.Amount⟩, .entry (toEntryRow l arg), none⟩

/-- An environment in which nothing fails. -/
def Env.healthy : Env :=
  { beginErr := none, reject := fun _ _ _ => none, rollbackErr := none, commitErr := none,
    afterFailedRollback := fun pre _ => pre, afterFailedCommit := fun pre _ => pre }

/-- The environment that rejects the `k`-th statement of a transaction with `e`. -/
def Env.failAt (k : Nat) (e : Error) : Env :=
  { Env.healthy with reject := fun n _ _ => if n = k then some e else none }

/-- Two accounts, identities 1 and 2, with the balances given. -/
def twoAccounts (b1 b2 : Int) : DB :=
  { tables := { accounts := [⟨1, "alice", b1, "USD"⟩, ⟨2, "bob", b2, "USD"⟩],
                entries := [], transfers := [] },
    trace := [] }

/-! ## Machine integers: facts -/

theorem neg64_eq_neg {x : Int} (h1 : minInt64 < x) (h2 : x ≤ maxInt64) : neg64 x = -x := by
  unfold neg64 wrap64
  unfold minInt64 at h1
  unfold maxInt64 at h2
  omega

theorem neg64_minInt64 : neg64 minInt64 = minInt64 := by
  decide

/-! ## The row update -/

theorem adjust_spec {id d : Int} {accounts accounts' : List Account} {r : Account}
    (h : adjust id d accounts = some (r, accounts')) :
    r.ID = id ∧
    (∃ b, balanceOf accounts id = some b ∧ r.Balance = b + d ∧
      balanceOf accounts' id = some (b + d)) ∧
    (∀ j, j ≠ id → balanceOf accounts' j = balanceOf accounts j) ∧
    totalBalance accounts' = totalBalance accounts + d := by
  induction accounts generalizing accounts' r with
  | nil => simp [adjust] at h
  | cons a rest ih =>
    unfold adjust at h
    by_cases ha : a.ID = id
    · rw [if_pos ha] at h
      simp only [Option.some.injEq, Prod.mk.injEq] at h
      obtain ⟨hr, hacc⟩ := h
      subst hr hacc
      have hne : ∀ j, j ≠ id → ¬ a.ID = j := fun j hj h' => hj (h'.symm.trans ha)
      refine ⟨ha, ⟨a.Balance, ?_, rfl, ?_⟩, ?_, ?_⟩
      · simp [balanceOf, ha]
      · simp [balanceOf, ha]
      · intro j hj
        simp [balanceOf, hne j hj]
      · simp [totalBalance]; ring
    · rw [if_neg ha] at h
      cases hrec : adjust id d rest with
      | none => simp [hrec] at h
      | some p =>
        obtain ⟨r0, rest'⟩ := p
        simp only [hrec, Option.some.injEq, Prod.mk.injEq] at h
        obtain ⟨hr, hacc⟩ := h
        subst hr hacc
        obtain ⟨h1, ⟨b, hb1, hb2, hb3⟩, h3, h4⟩ := ih hrec
        refine ⟨h1, ⟨b, ?_, hb2, ?_⟩, ?_, ?_⟩
        · simp [balanceOf, ha, hb1]
        · simp [balanceOf, ha, hb3]
        · intro j hj
          by_cases haj : a.ID = j
          · simp [balanceOf, haj]
          · simp [balanceOf, haj, h3 j hj]
        · simp only [totalBalance, List.map_cons, List.sum_cons] at h4 ⊢
          rw [h4]; ring

/-! ## The accessor: each call either fails, leaving the tables as they were, or applies -/

theorem CreateTransfer_cases (env : Env) (q : Queries) (arg : CreateTransferParams) :
    (∃ e, CreateTransfer env q arg =
      ((Transfer.zero, some e),
        q.failed (.createTransfer arg) (.transfer Transfer.zero) e)) ∨
    (∃ q', CreateTransfer env q arg = ((transferRow q.ledger arg, none), q') ∧
      q'.ledger = { q.ledger with
        transfers := q.ledger.transfers ++ [transferRow q.ledger arg] } ∧
      q'.calls = q.calls ++
        [⟨.createTransfer arg, .transfer (transferRow q.ledger arg), none⟩]) := by
  unfold CreateTransfer
  cases env.reject q.calls.length (.createTransfer arg) q.ledger with
  | some e => exact Or.inl ⟨e, rfl⟩
  | none => exact Or.inr ⟨_, rfl, rfl, rfl⟩

theorem CreateEntry_cases (env : Env) (q : Queries) (arg : CreateEntryParams) :
    (∃ e, CreateEntry env q arg =
      ((Entry.zero, some e), q.failed (.createEntry arg) (.entry Entry.zero) e)) ∨
    (∃ q', CreateEntry env q arg =
        ((⟨(q.ledger.entries.length : Int) + 1, arg.AccountID, arg.Amount⟩, none), q') ∧
      q'.ledger = { q.ledger with entries := q.ledger.entries ++
        [⟨(q.ledger.entries.length : Int) + 1, arg.AccountID, arg.Amount⟩] } ∧
      q'.calls = q.calls ++ [⟨.createEntry arg,
        .entry ⟨(q.ledger.entries.length : Int) + 1, arg.AccountID, arg.Amount⟩, none⟩]) := by
  unfold CreateEntry
  cases env.reject q.calls.length (.createEntry arg) q.ledger with
  | some e => exact Or.inl ⟨e, rfl⟩
  | none => exact Or.inr ⟨_, rfl, rfl, rfl⟩

theorem AddAccountBalance_cases (env : Env) (q : Queries) (arg : AddAccountBalanceParams) :
    (∃ e, AddAccountBalance env q arg =
      ((Account.zero, some e),
        q.failed (.addAccountBalance arg) (.account Account.zero) e)) ∨
    (∃ a accounts' q', adjust arg.ID arg.Amount q.ledger.accounts = some (a, accounts') ∧
      (isInt64 a.Balance ∧ 0 ≤ a.Balance) ∧
      AddAccountBalance env q arg = ((a, none), q') ∧
      q'.ledger = { q.ledger with accounts := accounts' } ∧
      q'.calls = q.calls ++ [⟨.addAccountBalance arg, .account a, none⟩]) := by
  unfold AddAccountBalance
  cases env.reject q.calls.length (.addAccountBalance arg) q.ledger with
  | some e => exact Or.inl ⟨e, rfl⟩
  | none =>
    cases hadj : adjust arg.ID arg.Amount q.ledger.accounts with
    | none => exact Or.inl ⟨ErrNoRows, rfl⟩
    | some p =>
      obtain ⟨a, accounts'⟩ := p
      by_cases hr : isInt64 a.Balance
      · by_cases hn : 0 ≤ a.Balance
        · exact Or.inr ⟨a, accounts',
            ⟨{ q.ledger with accounts := accounts' },
              q.calls ++ [⟨.addAccountBalance arg, .account a, none⟩]⟩,
            rfl, ⟨hr, hn⟩, by simp only [if_pos hr, if_pos hn], rfl, rfl⟩
        · exact Or.inl ⟨ErrNegativeBalance, by simp only [if_pos hr, if_neg hn]⟩
      · exact Or.inl ⟨ErrOutOfRange, by simp only [if_neg hr]⟩

/-! ## `addMoney`: its three outcomes -/

theorem addMoney_cases (env : Env) (q : Queries) (id1 d1 id2 d2 : Int) :
    (∃ e, addMoney env q id1 d1 id2 d2 =
      ((Account.zero, Account.zero, some e),
        q.failed (.addAccountBalance ⟨id1, d1⟩) (.account Account.zero) e)) ∨
    (∃ a1 acc1 e q', adjust id1 d1 q.ledger.accounts = some (a1, acc1) ∧
      addMoney env q id1 d1 id2 d2 = ((a1, Account.zero, some e), q') ∧
      q'.calls = q.calls ++ [⟨.addAccountBalance ⟨id1, d1⟩, .account a1, none⟩,
        ⟨.addAccountBalance ⟨id2, d2⟩, .account Account.zero, some e⟩]) ∨
    (∃ a1 acc1 a2 acc2 q', adjust id1 d1 q.ledger.accounts = some (a1, acc1) ∧
      adjust id2 d2 acc1 = some (a2, acc2) ∧ (isInt64 a1.Balance ∧ 0 ≤ a1.Balance) ∧
      (isInt64 a2.Balance ∧ 0 ≤ a2.Balance) ∧
      addMoney env q id1 d1 id2 d2 = ((a1, a2, none), q') ∧
      q'.ledger = { q.ledger with accounts := acc2 } ∧
      q'.calls = q.calls ++ [⟨.addAccountBalance ⟨id1, d1⟩, .account a1, none⟩,
        ⟨.addAccountBalance ⟨id2, d2⟩, .account a2, none⟩]) := by
  unfold addMoney
  rcases AddAccountBalance_cases env q ⟨id1, d1⟩ with
    ⟨e, h1⟩ | ⟨a1, acc1, q1, hadj1, hr1, h1, hl1, hc1⟩
  · exact Or.inl ⟨e, by simp only [h1]⟩
  · simp only [h1]
    rcases AddAccountBalance_cases env q1 ⟨id2, d2⟩ with
      ⟨e, h2⟩ | ⟨a2, acc2, q2, hadj2, hr2, h2, hl2, hc2⟩
    · refine Or.inr (Or.inl ⟨a1, acc1, e,
        q1.failed (.addAccountBalance ⟨id2, d2⟩) (.account Account.zero) e, hadj1,
        by simp only [h2], ?_⟩)
      simp only [Queries.failed, hc1, List.append_assoc, List.singleton_append]
    · refine Or.inr (Or.inr ⟨a1, acc1, a2, acc2, q2, hadj1, ?_, hr1, hr2,
        by simp only [h2], ?_, ?_⟩)
      · rw [hl1] at hadj2; exact hadj2
      · rw [hl2, hl1]
      · rw [hc2, hc1]; simp only [List.append_assoc, List.singleton_append]

/-! ## The closure of `TransferTx`: its six outcomes -/

theorem transferFn_cases (env : Env) (arg : CreateTransferParams) (q : Queries)
    (res : TransferTxResult) :
    (∃ e, (transferFn env arg q res).1.1 = some e ∧
      (transferFn env arg q res).1.2.calls = q.calls ++
        [⟨.createTransfer ⟨arg.FromAccountID, arg.ToAccountID, arg.Amount⟩,
          .transfer Transfer.zero, some e⟩]) ∨
    (∃ e, (transferFn env arg q res).1.1 = some e ∧
      (transferFn env arg q res).1.2.calls = q.calls ++
        [transferCall q.ledger arg,
          ⟨.createEntry ⟨arg.FromAccountID, neg64 arg.Amount⟩, .entry Entry.zero, some e⟩]) ∨
    (∃ e, (transferFn env arg q res).1.1 = some e ∧
      (transferFn env arg q res).1.2.calls = q.calls ++
        [transferCall q.ledger arg, fromEntryCall q.ledger arg,
          ⟨.createEntry ⟨arg.ToAccountID, arg.Amount⟩, .entry Entry.zero, some e⟩]) ∨
    (∃ e, (transferFn env arg q res).1.1 = some e ∧
      (transferFn env arg q res).1.2.calls = q.calls ++
        [transferCall q.ledger arg, fromEntryCall q.ledger arg, toEntryCall q.ledger arg,
          ⟨.addAccountBalance (firstAdjustment arg), .account Account.zero, some e⟩]) ∨
    (∃ e a1, (transferFn env arg q res).1.1 = some e ∧
      (transferFn env arg q res).1.2.calls = q.calls ++
        [transferCall q.ledger arg, fromEntryCall q.ledger arg, toEntryCall q.ledger arg,
          ⟨.addAccountBalance (firstAdjustment arg), .account a1, none⟩,
          ⟨.addAccountBalance (secondAdjustment arg), .account Account.zero, some e⟩]) ∨
    (∃ a1 acc1 a2 acc2,
      adjust (firstAdjustment arg).ID (firstAdjustment arg).Amount q.ledger.accounts
        = some (a1, acc1) ∧
      adjust (secondAdjustment arg).ID (secondAdjustment arg).Amount acc1
        = some (a2, acc2) ∧
      (isInt64 a1.Balance ∧ 0 ≤ a1.Balance) ∧
      (isInt64 a2.Balance ∧ 0 ≤ a2.Balance) ∧
      (transferFn env arg q res).1.1 = none ∧
      (transferFn env arg q res).1.2.ledger =
        { accounts := acc2,
          entries := q.ledger.entries ++
            [fromEntryRow q.ledger arg, toEntryRow q.ledger arg],
          transfers := q.ledger.transfers ++ [transferRow q.ledger arg] } ∧
      (transferFn env arg q res).1.2.calls = q.calls ++
        [transferCall q.ledger arg, fromEntryCall q.ledger arg, toEntryCall q.ledger arg,
          ⟨.addAccountBalance (firstAdjustment arg), .account a1, none⟩,
          ⟨.addAccountBalance (secondAdjustment arg), .account a2, none⟩] ∧
      (transferFn env arg q res).2 =
        if arg.FromAccountID < arg.ToAccountID then
          ⟨transferRow q.ledger arg, a1, a2, fromEntryRow q.ledger arg,
            toEntryRow q.ledger arg⟩
        else
          ⟨transferRow q.ledger arg, a2, a1, fromEntryRow q.ledger arg,
            toEntryRow q.ledger arg⟩) := by
  unfold transferFn
  rcases CreateTransfer_cases env q ⟨arg.FromAccountID, arg.ToAccountID, arg.Amount⟩
    with ⟨e, h1⟩ | ⟨q1, h1, hl1, hc1⟩
  · exact Or.inl ⟨e, by simp only [h1], by simp only [h1, Queries.failed]⟩
  right
  simp only [h1]
  rcases CreateEntry_cases env q1 ⟨arg.FromAccountID, neg64 arg.Amount⟩
    with ⟨e, h2⟩ | ⟨q2, h2, hl2, hc2⟩
  · refine Or.inl ⟨e, by simp only [h2], ?_⟩
    simp only [h2, Queries.failed, hc1, transferCall, List.append_assoc,
      List.singleton_append]
  right
  simp only [h2]
  rcases CreateEntry_cases env q2 ⟨arg.ToAccountID, arg.Amount⟩
    with ⟨e, h3⟩ | ⟨q3, h3, hl3, hc3⟩
  · refine Or.inl ⟨e, by simp only [h3], ?_⟩
    simp only [h3, Queries.failed, hc2, hc1, hl1, transferCall, fromEntryCall, fromEntryRow,
      List.append_assoc, List.singleton_append]
    rfl
  right
  simp only [h3]
  have hcalls : q3.calls = q.calls ++
      [transferCall q.ledger arg, fromEntryCall q.ledger arg, toEntryCall q.ledger arg] := by
    simp only [hc3, hc2, hc1, hl2, hl1, transferCall, fromEntryCall, fromEntryRow,
      toEntryCall, toEntryRow, List.append_assoc, List.singleton_append]
    rfl
  have hledger : q3.ledger =
      { accounts := q.ledger.accounts,
        entries := q.ledger.entries ++ [fromEntryRow q.ledger arg, toEntryRow q.ledger arg],
        transfers := q.ledger.transfers ++ [transferRow q.ledger arg] } := by
    simp only [hl3, hl2, hl1, fromEntryRow, toEntryRow, List.append_assoc,
      List.singleton_append]
  have hrows : ∀ a b : Account,
      ({ Transfer := transferRow q.ledger ⟨arg.FromAccountID, arg.ToAccountID, arg.Amount⟩,
         FromAccount := a, ToAccount := b,
         FromEntry := ⟨(q1.ledger.entries.length : Int) + 1, arg.FromAccountID,
           neg64 arg.Amount⟩,
         ToEntry := ⟨(q2.ledger.entries.length : Int) + 1, arg.ToAccountID, arg.Amount⟩ }
        : TransferTxResult) =
      ⟨transferRow q.ledger arg, a, b, fromEntryRow q.ledger arg, toEntryRow q.ledger arg⟩ := by
    intro a b
    simp only [hl2, hl1, fromEntryRow, toEntryRow]
  by_cases hlt : arg.FromAccountID < arg.ToAccountID
  · simp only [if_pos hlt, firstAdjustment, secondAdjustment]
    rcases addMoney_cases env q3 arg.FromAccountID (neg64 arg.Amount) arg.ToAccountID
      arg.Amount with ⟨e, h4⟩ | ⟨a1, acc1, e, q4, hadj1, h4, hc4⟩ |
        ⟨a1, acc1, a2, acc2, q4, hadj1, hadj2, hr1, hr2, h4, hl4, hc4⟩
    · refine Or.inl ⟨e, by simp only [h4], ?_⟩
      simp only [h4, Queries.failed, hcalls, List.append_assoc, List.cons_append,
        List.nil_append]
    · refine Or.inr (Or.inl ⟨e, a1, by simp only [h4], ?_⟩)
      simp only [h4, hc4, hcalls, List.append_assoc, List.cons_append, List.nil_append]
    · refine Or.inr (Or.inr ⟨a1, acc1, a2, acc2, ?_, hadj2, hr1, hr2, by simp only [h4], ?_,
        ?_, ?_⟩)
      · rw [hledger] at hadj1; exact hadj1
      · simp only [h4, hl4, hledger]
      · simp only [h4, hc4, hcalls, List.append_assoc, List.cons_append, List.nil_append]
      · simp only [h4]; exact hrows a1 a2
  · simp only [if_neg hlt, firstAdjustment, secondAdjustment]
    rcases addMoney_cases env q3 arg.ToAccountID arg.Amount arg.FromAccountID
      (neg64 arg.Amount) with ⟨e, h4⟩ | ⟨a1, acc1, e, q4, hadj1, h4, hc4⟩ |
        ⟨a1, acc1, a2, acc2, q4, hadj1, hadj2, hr1, hr2, h4, hl4, hc4⟩
    · refine Or.inl ⟨e, by simp only [h4], ?_⟩
      simp only [h4, Queries.failed, hcalls, List.append_assoc, List.cons_append,
        List.nil_append]
    · refine Or.inr (Or.inl ⟨e, a1, by simp only [h4], ?_⟩)
      simp only [h4, hc4, hcalls, List.append_assoc, List.cons_append, List.nil_append]
    · refine Or.inr (Or.inr ⟨a1, acc1, a2, acc2, ?_, hadj2, hr1, hr2, by simp only [h4], ?_,
        ?_, ?_⟩)
      · rw [hledger] at hadj1; exact hadj1
      · simp only [h4, hl4, hledger]
      · simp only [h4, hc4, hcalls, List.append_assoc, List.cons_append, List.nil_append]
      · simp only [h4]; exact hrows a2 a1

/-! ## `TransferTx` through `execTx` -/

theorem queries_of_trace (pre : List Event) (calls : List Call) (last : Event)
    (hlast : ∀ c, last ≠ Event.query c) :
    ((pre ++ [Event.beginTx] ++ calls.map Event.query ++ [last]).drop pre.length).filterMap
      (fun ev => match ev with
        | Event.query c => some c
        | _ => none) = calls := by
  have h1 : ∀ cs : List Call, List.filterMap ((fun ev => match ev with
        | Event.query c => some c
        | _ => none) ∘ Event.query) cs = cs := by
    intro cs
    induction cs with
    | nil => rfl
    | cons c rest ih => simp only [List.filterMap_cons, Function.comp, ih]
  have hdrop : (pre ++ [Event.beginTx] ++ calls.map Event.query ++ [last]).drop pre.length
      = [Event.beginTx] ++ calls.map Event.query ++ [last] := by
    rw [List.append_assoc, List.append_assoc]
    rw [List.drop_left]
    simp only [List.append_assoc]
  rw [hdrop]
  simp only [List.filterMap_append, List.filterMap_cons, List.filterMap_nil, List.nil_append,
    List.filterMap_map]
  rw [h1]
  cases last with
  | query c => exact absurd rfl (hlast c)
  | beginTx => simp
  | rollback => simp
  | commit => simp

theorem issued_eq (env : Env) (db : DB) (arg : CreateTransferParams) :
    issued env db arg =
      match env.beginErr with
      | some _ => []
      | none => (transferFn env arg (New db.tables) TransferTxResult.zero).1.2.calls := by
  unfold issued TransferTx execTx
  cases hb : env.beginErr with
  | some e => simp
  | none =>
    simp only []
    cases hf : (transferFn env arg (New db.tables) TransferTxResult.zero).1.1 with
    | some e =>
      cases hr : env.rollbackErr with
      | some rb => simp only []; exact queries_of_trace _ _ _ (by intro c h; cases h)
      | none => simp only []; exact queries_of_trace _ _ _ (by intro c h; cases h)
    | none =>
      cases hc : env.commitErr with
      | some ce => simp only []; exact queries_of_trace _ _ _ (by intro c h; cases h)
      | none => simp only []; exact queries_of_trace _ _ _ (by intro c h; cases h)

theorem TransferTx_ok {env : Env} {db : DB} {arg : CreateTransferParams}
    (h : (TransferTx env db arg).1.2 = none) :
    env.beginErr = none ∧ env.commitErr = none ∧
    (transferFn env arg (New db.tables) TransferTxResult.zero).1.1 = none ∧
    (TransferTx env db arg).1.1 =
      (transferFn env arg (New db.tables) TransferTxResult.zero).2 ∧
    (TransferTx env db arg).2.tables =
      (transferFn env arg (New db.tables) TransferTxResult.zero).1.2.ledger := by
  unfold TransferTx execTx at h ⊢
  cases hb : env.beginErr with
  | some e => simp [hb] at h
  | none =>
    simp only [hb] at h ⊢
    cases hf : (transferFn env arg (New db.tables) TransferTxResult.zero).1.1 with
    | some e =>
      simp only [hf] at h
      cases hr : env.rollbackErr with
      | some rb => simp [hr] at h
      | none => simp [hr] at h
    | none =>
      simp only [hf] at h ⊢
      cases hc : env.commitErr with
      | some ce => simp [hc] at h
      | none => simp

/-- A committed transfer: the two adjustments applied, the rows created and handed back,
the tables committed and the calls issued. -/
theorem TransferTx_success {env : Env} {db : DB} {arg : CreateTransferParams}
    (h : (TransferTx env db arg).1.2 = none) :
    ∃ a1 acc1 a2 acc2,
      adjust (firstAdjustment arg).ID (firstAdjustment arg).Amount db.tables.accounts
        = some (a1, acc1) ∧
      adjust (secondAdjustment arg).ID (secondAdjustment arg).Amount acc1
        = some (a2, acc2) ∧
      (isInt64 a1.Balance ∧ 0 ≤ a1.Balance) ∧
      (isInt64 a2.Balance ∧ 0 ≤ a2.Balance) ∧
      (TransferTx env db arg).1.1 =
        (if arg.FromAccountID < arg.ToAccountID then
          ⟨transferRow db.tables arg, a1, a2, fromEntryRow db.tables arg,
            toEntryRow db.tables arg⟩
        else
          ⟨transferRow db.tables arg, a2, a1, fromEntryRow db.tables arg,
            toEntryRow db.tables arg⟩) ∧
      (TransferTx env db arg).2.tables =
        { accounts := acc2,
          entries := db.tables.entries ++
            [fromEntryRow db.tables arg, toEntryRow db.tables arg],
          transfers := db.tables.transfers ++ [transferRow db.tables arg] } ∧
      issued env db arg =
        [transferCall db.tables arg, fromEntryCall db.tables arg, toEntryCall db.tables arg,
          ⟨.addAccountBalance (firstAdjustment arg), .account a1, none⟩,
          ⟨.addAccountBalance (secondAdjustment arg), .account a2, none⟩] := by
  obtain ⟨hb, _, hf, hres, htab⟩ := TransferTx_ok h
  have hiss := issued_eq env db arg
  rw [hb] at hiss
  simp only [] at hiss
  rcases transferFn_cases env arg (New db.tables) TransferTxResult.zero with
    ⟨e, he, _⟩ | ⟨e, he, _⟩ | ⟨e, he, _⟩ | ⟨e, he, _⟩ | ⟨e, a1, he, _⟩ |
    ⟨a1, acc1, a2, acc2, hadj1, hadj2, hr1, hr2, _, hl, hc, hr⟩
  · rw [hf] at he; cases he
  · rw [hf] at he; cases he
  · rw [hf] at he; cases he
  · rw [hf] at he; cases he
  · rw [hf] at he; cases he
  · refine ⟨a1, acc1, a2, acc2, hadj1, hadj2, hr1, hr2, ?_, ?_, ?_⟩
    · rw [hres, hr]; rfl
    · rw [htab, hl]; rfl
    · rw [hiss, hc]; rfl

/-- Two consecutive row updates on distinct identities. -/
theorem adjust_two_distinct {i1 d1 i2 d2 : Int} {accounts acc1 acc2 : List Account}
    {a1 a2 : Account} (h1 : adjust i1 d1 accounts = some (a1, acc1))
    (h2 : adjust i2 d2 acc1 = some (a2, acc2)) (hne : i1 ≠ i2) :
    ∃ b1 b2, balanceOf accounts i1 = some b1 ∧ balanceOf accounts i2 = some b2 ∧
      a1.Balance = b1 + d1 ∧ a2.Balance = b2 + d2 ∧
      balanceOf acc2 i1 = some (b1 + d1) ∧ balanceOf acc2 i2 = some (b2 + d2) := by
  obtain ⟨_, ⟨b1, hb1, ha1, hp1⟩, ho1, _⟩ := adjust_spec h1
  obtain ⟨_, ⟨b2, hb2, ha2, hp2⟩, ho2, _⟩ := adjust_spec h2
  refine ⟨b1, b2, hb1, ?_, ha1, ha2, ?_, hp2⟩
  · rw [← ho1 i2 (Ne.symm hne)]; exact hb2
  · rw [ho2 i1 hne]; exact hp1

/-- Two consecutive row updates: what they leave alone and what they add up to. -/
theorem adjust_two {i1 d1 i2 d2 : Int} {accounts acc1 acc2 : List Account}
    {a1 a2 : Account} (h1 : adjust i1 d1 accounts = some (a1, acc1))
    (h2 : adjust i2 d2 acc1 = some (a2, acc2)) :
    a1.ID = i1 ∧ a2.ID = i2 ∧
    (∀ j, j ≠ i1 → j ≠ i2 → balanceOf acc2 j = balanceOf accounts j) ∧
    totalBalance acc2 = totalBalance accounts + d1 + d2 ∧
    (i1 = i2 → ∃ b, balanceOf accounts i1 = some b ∧
      balanceOf acc2 i1 = some (b + d1 + d2)) := by
  obtain ⟨hid1, ⟨b1, hb1, ha1, hp1⟩, ho1, ht1⟩ := adjust_spec h1
  obtain ⟨hid2, ⟨b2, hb2, ha2, hp2⟩, ho2, ht2⟩ := adjust_spec h2
  refine ⟨hid1, hid2, ?_, ?_, ?_⟩
  · intro j hj1 hj2
    rw [ho2 j hj2, ho1 j hj1]
  · rw [ht2, ht1]
  · intro heq
    subst heq
    rw [hp1] at hb2
    cases hb2
    exact ⟨b1, hb1, hp2⟩

/-- The balances a committed transfer between distinct accounts reads and writes. -/
theorem TransferTx_balances {env : Env} {db : DB} {arg : CreateTransferParams}
    (h : (TransferTx env db arg).1.2 = none) (hne : arg.FromAccountID ≠ arg.ToAccountID) :
    ∃ bf bt, balanceOf db.tables.accounts arg.FromAccountID = some bf ∧
      balanceOf db.tables.accounts arg.ToAccountID = some bt ∧
      (TransferTx env db arg).1.1.FromAccount.Balance = bf + neg64 arg.Amount ∧
      (TransferTx env db arg).1.1.ToAccount.Balance = bt + arg.Amount ∧
      balanceOf (TransferTx env db arg).2.tables.accounts arg.FromAccountID
        = some (bf + neg64 arg.Amount) ∧
      balanceOf (TransferTx env db arg).2.tables.accounts arg.ToAccountID
        = some (bt + arg.Amount) ∧
      (isInt64 (bf + neg64 arg.Amount) ∧ 0 ≤ bf + neg64 arg.Amount) ∧
      (isInt64 (bt + arg.Amount) ∧ 0 ≤ bt + arg.Amount) := by
  obtain ⟨a1, acc1, a2, acc2, hadj1, hadj2, hr1, hr2, hres, htab, _⟩ := TransferTx_success h
  by_cases hlt : arg.FromAccountID < arg.ToAccountID
  · simp only [firstAdjustment, secondAdjustment, if_pos hlt] at hadj1 hadj2
    obtain ⟨b1, b2, hb1, hb2, ha1, ha2, hp1, hp2⟩ := adjust_two_distinct hadj1 hadj2 hne
    rw [hres, htab, if_pos hlt]
    rw [ha1] at hr1
    rw [ha2] at hr2
    exact ⟨b1, b2, hb1, hb2, ha1, ha2, hp1, hp2, hr1, hr2⟩
  · simp only [firstAdjustment, secondAdjustment, if_neg hlt] at hadj1 hadj2
    obtain ⟨b1, b2, hb1, hb2, ha1, ha2, hp1, hp2⟩ :=
      adjust_two_distinct hadj1 hadj2 (Ne.symm hne)
    rw [hres, htab, if_neg hlt]
    rw [ha1] at hr1
    rw [ha2] at hr2
    exact ⟨b2, b1, hb2, hb1, ha2, ha1, hp2, hp1, hr2, hr1⟩

/-- A balance read from a table whose balances all fit in 64 bits fits in 64 bits. -/
theorem isInt64_of_balanceOf {accounts : List Account} {id v : Int}
    (hbal : ∀ acct ∈ accounts, isInt64 acct.Balance)
    (h : balanceOf accounts id = some v) : isInt64 v := by
  induction accounts with
  | nil => simp [balanceOf] at h
  | cons a rest ih =>
    unfold balanceOf at h
    by_cases ha : a.ID = id
    · rw [if_pos ha] at h
      cases h
      exact hbal a (List.mem_cons_self a rest)
    · rw [if_neg ha] at h
      exact ih (fun acct hmem => hbal acct (List.mem_cons_of_mem a hmem)) h

/-- A committed transfer over a table of 64-bit balances never has the least `int64`
as its amount: the first adjustment would take `2^63` off a balance below `2^63`, and
the store rejects the negative result. -/
theorem TransferTx_amount_ne_min {env : Env} {db : DB} {arg : CreateTransferParams}
    (hbal : ∀ acct ∈ db.tables.accounts, isInt64 acct.Balance)
    (h : (TransferTx env db arg).1.2 = none) : arg.Amount ≠ minInt64 := by
  intro heq
  obtain ⟨a1, acc1, a2, acc2, hadj1, _, hr1, _, _, _, _⟩ := TransferTx_success h
  obtain ⟨_, ⟨b, hb, ha, _⟩, _, _⟩ := adjust_spec hadj1
  have hamt : (firstAdjustment arg).Amount = minInt64 := by
    unfold firstAdjustment
    split
    · show neg64 arg.Amount = minInt64
      rw [heq, neg64_minInt64]
    · exact heq
  have hb64 : isInt64 b := isInt64_of_balanceOf hbal hb
  have hnn := hr1.2
  rw [ha, hamt] at hnn
  unfold isInt64 minInt64 maxInt64 at hb64
  unfold minInt64 at hnn
  omega

/-! ## Balances returned by a transfer -/

/-- C1 (as amended): for every ledger state (balances in the `int64` range) and every
successful `TransferTx(from, to, amount)` with `from ≠ to` (amount any `int64`), both
accounts exist before the call, `result.FromAccount.balance` is the balance of `from`
before the call minus `amount`, and `result.ToAccount.balance` is the balance of `to`
before the call plus `amount`. -/
theorem transfer_result_balances (env : Env) (db : DB) (arg : CreateTransferParams)
    (hne : arg.FromAccountID ≠ arg.ToAccountID)
    (hamt : isInt64 arg.Amount)
    (hbal : ∀ acct ∈ db.tables.accounts, isInt64 acct.Balance)
    (hok : (TransferTx env db arg).1.2 = none) :
    ∃ preFrom preTo,
      balanceOf db.tables.accounts arg.FromAccountID = some preFrom ∧
      balanceOf db.tables.accounts arg.ToAccountID = some preTo ∧
      (TransferTx env db arg).1.1.FromAccount.Balance = preFrom - arg.Amount ∧
      (TransferTx env db arg).1.1.ToAccount.Balance = preTo + arg.Amount := by
  obtain ⟨bf, bt, hbf, hbt, hf, ht, _⟩ := TransferTx_balances hok hne
  have hmin : minInt64 < arg.Amount :=
    lt_of_le_of_ne hamt.1 (Ne.symm (TransferTx_amount_ne_min hbal hok))
  refine ⟨bf, bt, hbf, hbt, ?_, ht⟩
  rw [hf, neg64_eq_neg hmin hamt.2]
  ring

/-- Witness of C1: the transfer of 30 from account 1 (balance 100) to account 2
(balance 50) returns the balances 70 and 80. -/
theorem transfer_result_balances_witness :
    ∃ preFrom preTo,
      balanceOf (twoAccounts 100 50).tables.accounts 1 = some preFrom ∧
      balanceOf (twoAccounts 100 50).tables.accounts 2 = some preTo ∧
      (TransferTx Env.healthy (twoAccounts 100 50) ⟨1, 2, 30⟩).1.1.FromAccount.Balance
        = preFrom - 30 ∧
      (TransferTx Env.healthy (twoAccounts 100 50) ⟨1, 2, 30⟩).1.1.ToAccount.Balance
        = preTo + 30 :=
  transfer_result_balances Env.healthy (twoAccounts 100 50) ⟨1, 2, 30⟩
    (by decide) (by decide) (by decide) (by decide)

/-- Counterexample to C1 as stated. A transfer of 30 from account 1 (balance 100) to
itself succeeds; the `else` branch applies `+30` and then `-30` to the same row, and
`result.FromAccount`, the second snapshot, carries the balance the account had before
the call, 100, not 100 - 30. -/
theorem transfer_result_balances_counterexample :
    (TransferTx Env.healthy (twoAccounts 100 50) ⟨1, 1, 30⟩).1.2 = none ∧
    balanceOf (twoAccounts 100 50).tables.accounts 1 = some 100 ∧
    (TransferTx Env.healthy (twoAccounts 100 50) ⟨1, 1, 30⟩).1.1.FromAccount.Balance = 100 ∧
    (TransferTx Env.healthy (twoAccounts 100 50) ⟨1, 1, 30⟩).1.1.FromAccount.Balance
      ≠ 100 - 30 := by
  decide

/-! ## Entries created by a transfer -/

/-- C2: for every successful `TransferTx(from, to, amount)` with `amount > 0` (an
`int64`), the entry created for the source account has amount `-amount` and is returned
as `result.FromEntry`, the entry created for the destination account has amount
`+amount` and is returned as `result.ToEntry`, the committed `entries` table gains
exactly these two rows, and the two amounts sum to zero. -/
theorem transfer_entries (env : Env) (db : DB) (arg : CreateTransferParams)
    (hpos : 0 < arg.Amount) (hmax : arg.Amount ≤ maxInt64)
    (hok : (TransferTx env db arg).1.2 = none) :
    (TransferTx env db arg).1.1.FromEntry.AccountID = arg.FromAccountID ∧
    (TransferTx env db arg).1.1.FromEntry.Amount = -arg.Amount ∧
    (TransferTx env db arg).1.1.ToEntry.AccountID = arg.ToAccountID ∧
    (TransferTx env db arg).1.1.ToEntry.Amount = arg.Amount ∧
    (TransferTx env db arg).2.tables.entries = db.tables.entries ++
      [(TransferTx env db arg).1.1.FromEntry, (TransferTx env db arg).1.1.ToEntry] ∧
    (issued env db arg).filterMap (fun c => match c.query with
      | Query.createEntry p => some (p, c.ret)
      | _ => none) =
      [(⟨arg.FromAccountID, -arg.Amount⟩, .entry (TransferTx env db arg).1.1.FromEntry),
        (⟨arg.ToAccountID, arg.Amount⟩, .entry (TransferTx env db arg).1.1.ToEntry)] ∧
    (TransferTx env db arg).1.1.FromEntry.Amount +
      (TransferTx env db arg).1.1.ToEntry.Amount = 0 := by
  obtain ⟨a1, acc1, a2, acc2, _, _, _, _, hres, htab, hiss⟩ := TransferTx_success hok
  have hneg : neg64 arg.Amount = -arg.Amount :=
    neg64_eq_neg (by unfold minInt64; omega) hmax
  have hfe : (TransferTx env db arg).1.1.FromEntry = fromEntryRow db.tables arg := by
    rw [hres]; split <;> rfl
  have hte : (TransferTx env db arg).1.1.ToEntry = toEntryRow db.tables arg := by
    rw [hres]; split <;> rfl
  rw [hfe, hte, htab, hiss]
  refine ⟨rfl, hneg, rfl, rfl, rfl, ?_, ?_⟩
  · simp only [List.filterMap_cons, List.filterMap_nil, transferCall, fromEntryCall,
      toEntryCall, hneg]
  · show neg64 arg.Amount + arg.Amount = 0
    rw [hneg]; omega

/-- Witness of C2: the transfer of 30 from account 1 to account 2. -/
theorem transfer_entries_witness :
    (TransferTx Env.healthy (twoAccounts 100 50) ⟨1, 2, 30⟩).1.1.FromEntry.Amount = -30 ∧
    (TransferTx Env.healthy (twoAccounts 100 50) ⟨1, 2, 30⟩).1.1.ToEntry.Amount = 30 ∧
    (TransferTx Env.healthy (twoAccounts 100 50) ⟨1, 2, 30⟩).2.tables.entries =
      [⟨1, 1, -30⟩, ⟨2, 2, 30⟩] ∧
    (TransferTx Env.healthy (twoAccounts 100 50) ⟨1, 2, 30⟩).1.1.FromEntry.Amount +
      (TransferTx Env.healthy (twoAccounts 100 50) ⟨1, 2, 30⟩).1.1.ToEntry.Amount = 0 :=
  have h := transfer_entries Env.healthy (twoAccounts 100 50) ⟨1, 2, 30⟩
    (by decide) (by decide) (by decide)
  ⟨h.2.1, h.2.2.2.1, by decide, h.2.2.2.2.2.2⟩

/-! ## Atomicity -/

/-- C3: for every ledger state and every `TransferTx` call, if one of the writes issued
(create transfer, create from-entry, create to-entry, first balance adjustment, second
balance adjustment) fails and the rollback succeeds, then `TransferTx` returns an error,
the error of the write that failed, and the committed tables (transfers, entries,
accounts) are those before the call. -/
theorem transfer_atomic (env : Env) (db : DB) (arg : CreateTransferParams)
    (hrb : env.rollbackErr = none)
    (hfail : ∃ c ∈ issued env db arg, c.err ≠ none) :
    (∃ e, (TransferTx env db arg).1.2 = some e) ∧
    (∀ c ∈ issued env db arg, c.err ≠ none → (TransferTx env db arg).1.2 = c.err) ∧
    (TransferTx env db arg).2.tables = db.tables := by
  have hiss := issued_eq env db arg
  cases hb : env.beginErr with
  | some e =>
    rw [hb] at hiss
    obtain ⟨c, hc, _⟩ := hfail
    rw [hiss] at hc
    cases hc
  | none =>
    rw [hb] at hiss
    simp only [] at hiss
    have hrun : ∀ e, (transferFn env arg (New db.tables) TransferTxResult.zero).1.1 = some e →
        (TransferTx env db arg).1.2 = some e ∧ (TransferTx env db arg).2.tables = db.tables := by
      intro e he
      unfold TransferTx execTx
      simp only [hb, he, hrb, and_self]
    have hlast : ∀ (e : Error) (init : List Call) (q : Query) (r : Row),
        (∀ c ∈ init, c.err = none) →
        ∀ c ∈ init ++ [⟨q, r, some e⟩], c.err ≠ none → some e = c.err := by
      intro e init q r hinit c hc hne
      rcases List.mem_append.mp hc with hc | hc
      · exact absurd (hinit c hc) hne
      · rw [List.mem_singleton] at hc; rw [hc]
    rcases transferFn_cases env arg (New db.tables) TransferTxResult.zero with
      ⟨e, he, hc⟩ | ⟨e, he, hc⟩ | ⟨e, he, hc⟩ | ⟨e, he, hc⟩ | ⟨e, a1, he, hc⟩ |
      ⟨a1, acc1, a2, acc2, _, _, _, _, _, _, hc, _⟩
    · refine ⟨⟨e, (hrun e he).1⟩, ?_, (hrun e he).2⟩
      intro c hmem hne
      rw [(hrun e he).1]
      rw [hiss, hc] at hmem
      exact hlast e [] _ _ (by simp) c (by simpa [New] using hmem) hne
    · refine ⟨⟨e, (hrun e he).1⟩, ?_, (hrun e he).2⟩
      intro c hmem hne
      rw [(hrun e he).1]
      rw [hiss, hc] at hmem
      exact hlast e [transferCall db.tables arg] _ _
        (by simp [transferCall]) c (by simpa [New] using hmem) hne
    · refine ⟨⟨e, (hrun e he).1⟩, ?_, (hrun e he).2⟩
      intro c hmem hne
      rw [(hrun e he).1]
      rw [hiss, hc] at hmem
      exact hlast e [transferCall db.tables arg, fromEntryCall db.tables arg] _ _
        (by simp [transferCall, fromEntryCall]) c (by simpa [New] using hmem) hne
    · refine ⟨⟨e, (hrun e he).1⟩, ?_, (hrun e he).2⟩
      intro c hmem hne
      rw [(hrun e he).1]
      rw [hiss, hc] at hmem
      exact hlast e [transferCall db.tables arg, fromEntryCall db.tables arg,
          toEntryCall db.tables arg] _ _
        (by simp [transferCall, fromEntryCall, toEntryCall]) c
        (by simpa [New] using hmem) hne
    · refine ⟨⟨e, (hrun e he).1⟩, ?_, (hrun e he).2⟩
      intro c hmem hne
      rw [(hrun e he).1]
      rw [hiss, hc] at hmem
      exact hlast e [transferCall db.tables arg, fromEntryCall db.tables arg,
          toEntryCall db.tables arg,
          ⟨.addAccountBalance (firstAdjustment arg), .account a1, none⟩] _ _
        (by simp [transferCall, fromEntryCall, toEntryCall]) c
        (by simpa [New] using hmem) hne
    · exfalso
      obtain ⟨c, hmem, hne⟩ := hfail
      rw [hiss, hc] at hmem
      simp [New, transferCall, fromEntryCall, toEntryCall] at hmem
      rcases hmem with h | h | h | h | h <;> (rw [h] at hne; exact hne rfl)

/-- Witness of C3: a failure injected at each of the five writes of the transfer of 30
from account 1 to account 2 leaves the committed tables as they were. -/
theorem transfer_atomic_witness :
    ((TransferTx (Env.failAt 0 ⟨"injected"⟩) (twoAccounts 100 50) ⟨1, 2, 30⟩).2.tables
      = (twoAccounts 100 50).tables) ∧
    ((TransferTx (Env.failAt 1 ⟨"injected"⟩) (twoAccounts 100 50) ⟨1, 2, 30⟩).2.tables
      = (twoAccounts 100 50).tables) ∧
    ((TransferTx (Env.failAt 2 ⟨"injected"⟩) (twoAccounts 100 50) ⟨1, 2, 30⟩).2.tables
      = (twoAccounts 100 50).tables) ∧
    ((TransferTx (Env.failAt 3 ⟨"injected"⟩) (twoAccounts 100 50) ⟨1, 2, 30⟩).2.tables
      = (twoAccounts 100 50).tables) ∧
    ((TransferTx (Env.failAt 4 ⟨"injected"⟩) (twoAccounts 100 50) ⟨1, 2, 30⟩).2.tables
      = (twoAccounts 100 50).tables) ∧
    (TransferTx (Env.failAt 4 ⟨"injected"⟩) (twoAccounts 100 50) ⟨1, 2, 30⟩).1.2
      = some ⟨"injected"⟩ :=
  ⟨(transfer_atomic (Env.failAt 0 ⟨"injected"⟩) (twoAccounts 100 50) ⟨1, 2, 30⟩ rfl
      (by decide)).2.2,
   (transfer_atomic (Env.failAt 1 ⟨"injected"⟩) (twoAccounts 100 50) ⟨1, 2, 30⟩ rfl
      (by decide)).2.2,
   (transfer_atomic (Env.failAt 2 ⟨"injected"⟩) (twoAccounts 100 50) ⟨1, 2, 30⟩ rfl
      (by decide)).2.2,
   (transfer_atomic (Env.failAt 3 ⟨"injected"⟩) (twoAccounts 100 50) ⟨1, 2, 30⟩ rfl
      (by decide)).2.2,
   (transfer_atomic (Env.failAt 4 ⟨"injected"⟩) (twoAccounts 100 50) ⟨1, 2, 30⟩ rfl
      (by decide)).2.2,
   by decide⟩

/-! ## Lock order -/

/-- C4 (as amended): for every `TransferTx(from, to, amount)` that reaches the
balance-update step (`BeginTx` succeeded and none of the three inserts failed), the
`AddAccountBalance` calls issued start with `(min(from,to), its own delta)`, where the
delta of the source is `-amount` as Go computes it and the delta of the destination is
`+amount`; when that first adjustment fails it is the only one issued, and when it
succeeds exactly one more follows, for `(max(from,to), its own delta)`. Go's `-amount`
is the exact negation for every `int64` amount other than the least. -/
theorem lock_order (env : Env) (db : DB) (arg : CreateTransferParams)
    (hbegin : env.beginErr = none)
    (hinserts : ∀ c ∈ (issued env db arg).take 3, c.err = none) :
    ((∃ r1 e, adjustments (issued env db arg) =
      [(⟨min arg.FromAccountID arg.ToAccountID,
          if arg.FromAccountID < arg.ToAccountID then neg64 arg.Amount else arg.Amount⟩,
        r1, some e)]) ∨
    (∃ r1 r2 e2, adjustments (issued env db arg) =
      [(⟨min arg.FromAccountID arg.ToAccountID,
          if arg.FromAccountID < arg.ToAccountID then neg64 arg.Amount else arg.Amount⟩,
        r1, none),
       (⟨max arg.FromAccountID arg.ToAccountID,
          if arg.FromAccountID < arg.ToAccountID then arg.Amount else neg64 arg.Amount⟩,
        r2, e2)])) ∧
    (minInt64 < arg.Amount → arg.Amount ≤ maxInt64 → neg64 arg.Amount = -arg.Amount) := by
  refine ⟨?_, fun hmin hmax => neg64_eq_neg hmin hmax⟩
  have hfirst : firstAdjustment arg =
      ⟨min arg.FromAccountID arg.ToAccountID,
        if arg.FromAccountID < arg.ToAccountID then neg64 arg.Amount else arg.Amount⟩ := by
    unfold firstAdjustment
    by_cases hlt : arg.FromAccountID < arg.ToAccountID
    · simp only [if_pos hlt, min_eq_left (le_of_lt hlt)]
    · simp only [if_neg hlt, min_eq_right (not_lt.mp hlt)]
  have hsecond : secondAdjustment arg =
      ⟨max arg.FromAccountID arg.ToAccountID,
        if arg.FromAccountID < arg.ToAccountID then arg.Amount else neg64 arg.Amount⟩ := by
    unfold secondAdjustment
    by_cases hlt : arg.FromAccountID < arg.ToAccountID
    · simp only [if_pos hlt, max_eq_right (le_of_lt hlt)]
    · simp only [if_neg hlt, max_eq_left (not_lt.mp hlt)]
  have hiss := issued_eq env db arg
  rw [hbegin] at hiss
  simp only [] at hiss
  rw [hiss] at hinserts ⊢
  rcases transferFn_cases env arg (New db.tables) TransferTxResult.zero with
    ⟨e, _, hc⟩ | ⟨e, _, hc⟩ | ⟨e, _, hc⟩ | ⟨e, _, hc⟩ | ⟨e, a1, _, hc⟩ |
    ⟨a1, acc1, a2, acc2, _, _, _, _, _, _, hc, _⟩
  · exfalso
    rw [hc] at hinserts
    simp [New] at hinserts
  · exfalso
    rw [hc] at hinserts
    simp [New, transferCall] at hinserts
  · exfalso
    rw [hc] at hinserts
    simp [New, transferCall, fromEntryCall] at hinserts
  · left
    refine ⟨.account Account.zero, e, ?_⟩
    rw [hc, ← hfirst]
    simp [adjustments, New, transferCall, fromEntryCall, toEntryCall]
  · right
    refine ⟨.account a1, .account Account.zero, some e, ?_⟩
    rw [hc, ← hfirst, ← hsecond]
    simp [adjustments, New, transferCall, fromEntryCall, toEntryCall]
  · right
    refine ⟨.account a1, .account a2, none, ?_⟩
    rw [hc, ← hfirst, ← hsecond]
    simp [adjustments, New, transferCall, fromEntryCall, toEntryCall]

/-- Witness of C4: the transfer of 30 from account 2 to account 1 reaches the
balance-update step and adjusts account 1 first, by +30, and account 2 second, by
-30. -/
theorem lock_order_witness :
    Env.healthy.beginErr = none ∧
    (∀ c ∈ (issued Env.healthy (twoAccounts 100 50) ⟨2, 1, 30⟩).take 3, c.err = none) ∧
    ((∃ r1 e, adjustments (issued Env.healthy (twoAccounts 100 50) ⟨2, 1, 30⟩) =
      [(⟨1, 30⟩, r1, some e)]) ∨
    (∃ r1 r2 e2, adjustments (issued Env.healthy (twoAccounts 100 50) ⟨2, 1, 30⟩) =
      [(⟨1, 30⟩, r1, none), (⟨2, -30⟩, r2, e2)])) :=
  ⟨rfl, by decide,
    (lock_order Env.healthy (twoAccounts 100 50) ⟨2, 1, 30⟩ rfl (by decide)).1⟩

/-- Counterexample to C4 as stated. When the store rejects the first adjustment of the
transfer of 30 from account 1 to account 2, the call has reached the balance-update
step (the three inserts succeeded) and issues one `AddAccountBalance` only, for
`(1, -30)`; the adjustment `(2, +30)` is never issued. -/
theorem lock_order_counterexample :
    (Env.failAt 3 ⟨"constraint"⟩).beginErr = none ∧
    (∀ c ∈ (issued (Env.failAt 3 ⟨"constraint"⟩) (twoAccounts 100 50) ⟨1, 2, 30⟩).take 3,
      c.err = none) ∧
    adjustments (issued (Env.failAt 3 ⟨"constraint"⟩) (twoAccounts 100 50) ⟨1, 2, 30⟩) =
      [(⟨1, -30⟩, .account Account.zero, some ⟨"constraint"⟩)] ∧
    (adjustments (issued (Env.failAt 3 ⟨"constraint"⟩) (twoAccounts 100 50)
      ⟨1, 2, 30⟩)).map (fun a => a.1) ≠ [⟨1, -30⟩, ⟨2, 30⟩] := by
  decide

/-! ## Assembly of the result -/

/-- C5: for every successful `TransferTx(from, to, amount)`, whichever branch of the
lock order was taken, `result.FromAccount` is the row returned by the balance
adjustment issued for `from` (the one that carries the negated amount) and
`result.ToAccount` the row returned by the adjustment issued for `to`, so
`result.FromAccount.id = from` and `result.ToAccount.id = to`; and `result.Transfer` is
the record created with `(from, to, amount)`. -/
theorem transfer_result_assembly (env : Env) (db : DB) (arg : CreateTransferParams)
    (hok : (TransferTx env db arg).1.2 = none) :
    adjustments (issued env db arg) =
      (if arg.FromAccountID < arg.ToAccountID then
        [(⟨arg.FromAccountID, neg64 arg.Amount⟩,
            .account (TransferTx env db arg).1.1.FromAccount, none),
          (⟨arg.ToAccountID, arg.Amount⟩,
            .account (TransferTx env db arg).1.1.ToAccount, none)]
      else
        [(⟨arg.ToAccountID, arg.Amount⟩,
            .account (TransferTx env db arg).1.1.ToAccount, none),
          (⟨arg.FromAccountID, neg64 arg.Amount⟩,
            .account (TransferTx env db arg).1.1.FromAccount, none)]) ∧
    (TransferTx env db arg).1.1.FromAccount.ID = arg.FromAccountID ∧
    (TransferTx env db arg).1.1.ToAccount.ID = arg.ToAccountID ∧
    (issued env db arg).filterMap (fun c => match c.query with
      | Query.createTransfer p => some (p, c.ret, c.err)
      | _ => none) =
      [(⟨arg.FromAccountID, arg.ToAccountID, arg.Amount⟩,
        .transfer (TransferTx env db arg).1.1.Transfer, none)] ∧
    (TransferTx env db arg).1.1.Transfer.FromAccountID = arg.FromAccountID ∧
    (TransferTx env db arg).1.1.Transfer.ToAccountID = arg.ToAccountID ∧
    (TransferTx env db arg).1.1.Transfer.Amount = arg.Amount ∧
    (TransferTx env db arg).2.tables.transfers =
      db.tables.transfers ++ [(TransferTx env db arg).1.1.Transfer] := by
  obtain ⟨a1, acc1, a2, acc2, hadj1, hadj2, _, _, hres, htab, hiss⟩ := TransferTx_success hok
  obtain ⟨hid1, hid2, _⟩ := adjust_two hadj1 hadj2
  have htr : (TransferTx env db arg).1.1.Transfer = transferRow db.tables arg := by
    rw [hres]; split <;> rfl
  rw [htr, htab, hiss]
  by_cases hlt : arg.FromAccountID < arg.ToAccountID
  · simp only [firstAdjustment, secondAdjustment, if_pos hlt] at hid1 hid2 ⊢
    rw [hres, if_pos hlt]
    refine ⟨?_, hid1, hid2, ?_, ?_⟩
    · simp [adjustments, transferCall, fromEntryCall, toEntryCall]
    · simp [transferCall, fromEntryCall, toEntryCall]
    · simp [transferRow]
  · simp only [firstAdjustment, secondAdjustment, if_neg hlt] at hid1 hid2 ⊢
    rw [hres, if_neg hlt]
    refine ⟨?_, hid2, hid1, ?_, ?_⟩
    · simp [adjustments, transferCall, fromEntryCall, toEntryCall]
    · simp [transferCall, fromEntryCall, toEntryCall]
    · simp [transferRow]

/-- Witness of C5: the transfer of 30 from account 2 to account 1, which takes the
`else` branch, returns account 2 as `FromAccount` and account 1 as `ToAccount`. -/
theorem transfer_result_assembly_witness :
    (TransferTx Env.healthy (twoAccounts 100 50) ⟨2, 1, 30⟩).1.2 = none ∧
    (TransferTx Env.healthy (twoAccounts 100 50) ⟨2, 1, 30⟩).1.1.FromAccount.ID = 2 ∧
    (TransferTx Env.healthy (twoAccounts 100 50) ⟨2, 1, 30⟩).1.1.ToAccount.ID = 1 ∧
    (TransferTx Env.healthy (twoAccounts 100 50) ⟨2, 1, 30⟩).1.1.Transfer = ⟨1, 2, 1, 30⟩ :=
  have h := transfer_result_assembly Env.healthy (twoAccounts 100 50) ⟨2, 1, 30⟩
    (by decide)
  ⟨by decide, h.2.1, h.2.2.1, by decide⟩

/-! ## The balance updater -/

/-- C7: `addMoney(id1, d1, id2, d2)` issues the adjustment `(id1, d1)` first; if it
fails, `addMoney` returns that error and issues nothing else, leaving the tables as
they were; otherwise it issues `(id2, d2)` second and nothing else, returns the error
of that call, and when both succeed it returns the two rows handed back by the calls
in the order of the inputs, the first for `id1` and the second for `id2`. -/
theorem addMoney_order (env : Env) (q : Queries) (id1 d1 id2 d2 : Int) :
    ∃ ret1 err1 rest,
      (addMoney env q id1 d1 id2 d2).2.calls =
        q.calls ++ ⟨.addAccountBalance ⟨id1, d1⟩, ret1, err1⟩ :: rest ∧
      (∀ e, err1 = some e →
        rest = [] ∧ (addMoney env q id1 d1 id2 d2).1.2.2 = some e ∧
        (addMoney env q id1 d1 id2 d2).2.ledger = q.ledger) ∧
      (err1 = none →
        ∃ ret2 err2, rest = [⟨.addAccountBalance ⟨id2, d2⟩, ret2, err2⟩] ∧
          (addMoney env q id1 d1 id2 d2).1.2.2 = err2 ∧
          (err2 = none →
            ret1 = .account (addMoney env q id1 d1 id2 d2).1.1 ∧
            ret2 = .account (addMoney env q id1 d1 id2 d2).1.2.1 ∧
            (addMoney env q id1 d1 id2 d2).1.1.ID = id1 ∧
            (addMoney env q id1 d1 id2 d2).1.2.1.ID = id2)) := by
  rcases addMoney_cases env q id1 d1 id2 d2 with
    ⟨e, h⟩ | ⟨a1, acc1, e, q', _, h, hc⟩ |
    ⟨a1, acc1, a2, acc2, q', hadj1, hadj2, _, _, h, _, hc⟩
  · refine ⟨.account Account.zero, some e, [], ?_, ?_, ?_⟩
    · rw [h]; rfl
    · intro e' he'
      cases he'
      rw [h]
      exact ⟨rfl, rfl, rfl⟩
    · intro hn; cases hn
  · refine ⟨.account a1, none, [⟨.addAccountBalance ⟨id2, d2⟩, .account Account.zero,
      some e⟩], ?_, ?_, ?_⟩
    · rw [h]; exact hc
    · intro e' he'; cases he'
    · intro _
      refine ⟨.account Account.zero, some e, rfl, by rw [h], ?_⟩
      intro hn; cases hn
  · obtain ⟨hid1, hid2, _⟩ := adjust_two hadj1 hadj2
    refine ⟨.account a1, none, [⟨.addAccountBalance ⟨id2, d2⟩, .account a2, none⟩],
      ?_, ?_, ?_⟩
    · rw [h]; exact hc
    · intro e' he'; cases he'
    · intro _
      refine ⟨.account a2, none, rfl, by rw [h], ?_⟩
      intro _
      rw [h]
      exact ⟨rfl, rfl, hid1, hid2⟩

/-- Witness of C7: with the first adjustment rejected, `addMoney` issues one call and
returns its error; with a healthy store it returns the rows of accounts 2 and 1 in
that order. -/
theorem addMoney_order_witness :
    ((addMoney (Env.failAt 0 ⟨"injected"⟩) (New (twoAccounts 100 50).tables) 2 (-30) 1 30).2.calls
      = [⟨.addAccountBalance ⟨2, -30⟩, .account Account.zero, some ⟨"injected"⟩⟩]) ∧
    ((addMoney Env.healthy (New (twoAccounts 100 50).tables) 2 (-30) 1 30).1 =
      (⟨2, "bob", 20, "USD"⟩, ⟨1, "alice", 130, "USD"⟩, none)) ∧
    (∃ ret1 err1 rest,
      (addMoney Env.healthy (New (twoAccounts 100 50).tables) 2 (-30) 1 30).2.calls =
        (New (twoAccounts 100 50).tables).calls ++
          ⟨.addAccountBalance ⟨2, -30⟩, ret1, err1⟩ :: rest) :=
  ⟨by decide, by decide,
    have ⟨r, e, rest, h, _⟩ :=
      addMoney_order Env.healthy (New (twoAccounts 100 50).tables) 2 (-30) 1 30
    ⟨r, e, rest, h⟩⟩

/-! ## The transaction scope runner -/

/-- The calls `execTx` adds to the driver's trace when `BeginTx` succeeds. -/
theorem execTx_trace {σ : Type} (env : Env) (db : DB)
    (fn : Queries → σ → (Option Error × Queries) × σ) (s : σ)
    (hb : env.beginErr = none) :
    (execTx env db fn s).1.2.trace.drop db.trace.length =
      [Event.beginTx] ++ (fn (New db.tables) s).1.2.calls.map Event.query ++
        [match (fn (New db.tables) s).1.1 with
          | some _ => Event.rollback
          | none => Event.commit] := by
  have hdrop : ∀ last : Event,
      (db.trace ++ [Event.beginTx] ++ (fn (New db.tables) s).1.2.calls.map Event.query ++
        [last]).drop db.trace.length =
      [Event.beginTx] ++ (fn (New db.tables) s).1.2.calls.map Event.query ++ [last] := by
    intro last
    rw [List.append_assoc, List.append_assoc, List.drop_left]
    simp only [List.append_assoc]
  unfold execTx
  simp only [hb]
  cases hf : (fn (New db.tables) s).1.1 with
  | some e =>
    cases hr : env.rollbackErr with
    | some rb => exact hdrop _
    | none => exact hdrop _
  | none =>
    cases hc : env.commitErr with
    | some ce => exact hdrop _
    | none => exact hdrop _

/-- C6: the outcome of `execTx`, for every callback `fn` and every outcome of begin,
rollback and commit. If begin fails, `fn` is never invoked (the outcome is the same for
every callback and the captured state is untouched) and the begin error is returned. If
`fn` returns the error `e` and rollback succeeds, exactly `e` is returned and no commit
is attempted. If `fn` returns `e` and rollback fails with `r`, the error returned is the
composite that carries the messages of both `e` and `r`. If `fn` succeeds, no rollback
is attempted, commit is attempted, and the result of `execTx` is the result of the
commit. -/
theorem execTx_outcome {σ : Type} (env : Env) (db : DB)
    (fn : Queries → σ → (Option Error × Queries) × σ) (s : σ) :
    (∀ e, env.beginErr = some e →
      (execTx env db fn s).1.1 = some e ∧
      (∀ fn' : Queries → σ → (Option Error × Queries) × σ,
        execTx env db fn' s = execTx env db fn s) ∧
      (execTx env db fn s).2 = s ∧
      (execTx env db fn s).1.2 = { tables := db.tables, trace := db.trace ++ [Event.beginTx] }) ∧
    (∀ e, env.beginErr = none → (fn (New db.tables) s).1.1 = some e →
      env.rollbackErr = none →
      (execTx env db fn s).1.1 = some e ∧
      Event.rollback ∈ (execTx env db fn s).1.2.trace.drop db.trace.length ∧
      Event.commit ∉ (execTx env db fn s).1.2.trace.drop db.trace.length ∧
      (execTx env db fn s).1.2.tables = db.tables) ∧
    (∀ e r, env.beginErr = none → (fn (New db.tables) s).1.1 = some e →
      env.rollbackErr = some r →
      (execTx env db fn s).1.1 = some ⟨"tx err: " ++ e.msg ++ ", rb err: " ++ r.msg⟩ ∧
      Event.rollback ∈ (execTx env db fn s).1.2.trace.drop db.trace.length ∧
      Event.commit ∉ (execTx env db fn s).1.2.trace.drop db.trace.length) ∧
    (env.beginErr = none → (fn (New db.tables) s).1.1 = none →
      (execTx env db fn s).1.1 = env.commitErr ∧
      Event.rollback ∉ (execTx env db fn s).1.2.trace.drop db.trace.length ∧
      Event.commit ∈ (execTx env db fn s).1.2.trace.drop db.trace.length ∧
      (env.commitErr = none →
        (execTx env db fn s).1.2.tables = (fn (New db.tables) s).1.2.ledger)) := by
  refine ⟨?_, ?_, ?_, ?_⟩
  · intro e hb
    refine ⟨?_, ?_, ?_, ?_⟩
    · unfold execTx; simp only [hb]
    · intro fn'; unfold execTx; simp only [hb]
    · unfold execTx; simp only [hb]
    · unfold execTx; simp only [hb]
  · intro e hb hf hr
    refine ⟨?_, ?_, ?_, ?_⟩
    · unfold execTx; simp only [hb, hf, hr]
    · rw [execTx_trace env db fn s hb, hf]; simp
    · rw [execTx_trace env db fn s hb, hf]; simp
    · unfold execTx; simp only [hb, hf, hr]
  · intro e r hb hf hr
    refine ⟨?_, ?_, ?_⟩
    · unfold execTx; simp only [hb, hf, hr, Errorf]
    · rw [execTx_trace env db fn s hb, hf]; simp
    · rw [execTx_trace env db fn s hb, hf]; simp
  · intro hb hf
    refine ⟨?_, ?_, ?_, ?_⟩
    · unfold execTx
      simp only [hb, hf]
      cases env.commitErr <;> rfl
    · rw [execTx_trace env db fn s hb, hf]; simp
    · rw [execTx_trace env db fn s hb, hf]; simp
    · intro hc
      unfold execTx
      simp only [hb, hf, hc]

/-- Witness of C6: with a store that rejects the second statement and a rollback that
fails, `execTx` returns the composite error. -/
theorem execTx_outcome_witness :
    (execTx { Env.failAt 1 ⟨"boom"⟩ with rollbackErr := some ⟨"gone"⟩ }
      (twoAccounts 100 50)
      (transferFn { Env.failAt 1 ⟨"boom"⟩ with rollbackErr := some ⟨"gone"⟩ } ⟨1, 2, 30⟩)
      TransferTxResult.zero).1.1 = some ⟨"tx err: boom, rb err: gone"⟩ :=
  ((execTx_outcome { Env.failAt 1 ⟨"boom"⟩ with rollbackErr := some ⟨"gone"⟩ }
      (twoAccounts 100 50)
      (transferFn { Env.failAt 1 ⟨"boom"⟩ with rollbackErr := some ⟨"gone"⟩ } ⟨1, 2, 30⟩)
      TransferTxResult.zero).2.2.1 ⟨"boom"⟩ ⟨"gone"⟩ rfl (by decide) rfl).1

/-! ## Round trip -/

/-- C8: for every ledger state (balances in the `int64` range), every pair of distinct
account ids `a`, `b` and every `int64` amount `x`, a successful `TransferTx(a, b, x)`
followed by a successful `TransferTx(b, a, x)` leaves the balances of both `a` and `b`
equal to their balances before the first call. -/
theorem round_trip (env1 env2 : Env) (db : DB) (a b x : Int)
    (hab : a ≠ b) (hx : isInt64 x)
    (hbal : ∀ acct ∈ db.tables.accounts, isInt64 acct.Balance)
    (h1 : (TransferTx env1 db ⟨a, b, x⟩).1.2 = none)
    (h2 : (TransferTx env2 (TransferTx env1 db ⟨a, b, x⟩).2 ⟨b, a, x⟩).1.2 = none) :
    balanceOf (TransferTx env2 (TransferTx env1 db ⟨a, b, x⟩).2 ⟨b, a, x⟩).2.tables.accounts a
      = balanceOf db.tables.accounts a ∧
    balanceOf (TransferTx env2 (TransferTx env1 db ⟨a, b, x⟩).2 ⟨b, a, x⟩).2.tables.accounts b
      = balanceOf db.tables.accounts b := by
  obtain ⟨bf, bt, hbf, hbt, _, _, hpa, hpb, hra, hrb⟩ := TransferTx_balances h1 hab
  obtain ⟨bf', bt', hbf', hbt', _, _, hpb', hpa', hrb', hra'⟩ :=
    TransferTx_balances h2 (Ne.symm hab)
  simp only [] at hbf hbt hpa hpb hbf' hbt' hpb' hpa' hra hrb hrb' hra'
  rw [hpb] at hbf'
  rw [hpa] at hbt'
  cases hbf'
  cases hbt'
  have hbfr : isInt64 bf := isInt64_of_balanceOf hbal hbf
  rw [hpa', hpb', hbf, hbt]
  have hneg : neg64 x = -x := by
    by_cases hxm : x = minInt64
    · exfalso
      subst hxm
      rw [neg64_minInt64] at hra hra'
      unfold isInt64 minInt64 maxInt64 at *
      omega
    · apply neg64_eq_neg _ hx.2
      have := hx.1
      omega
  rw [hneg]
  constructor
  · congr 1; ring
  · congr 1; ring

/-- Witness of C8: from the balances (100, 50), `transfer(1, 2, 30)` gives (70, 80) and
`transfer(2, 1, 30)` then returns `FromAccount` (account 2) with balance 50 and
`ToAccount` (account 1) with balance 100, the balances before the first call. -/
theorem round_trip_witness :
    ((TransferTx Env.healthy (twoAccounts 100 50) ⟨1, 2, 30⟩).2.tables.accounts =
      (twoAccounts 70 80).tables.accounts) ∧
    ((TransferTx Env.healthy (TransferTx Env.healthy (twoAccounts 100 50) ⟨1, 2, 30⟩).2
      ⟨2, 1, 30⟩).1.1.FromAccount = ⟨2, "bob", 50, "USD"⟩) ∧
    ((TransferTx Env.healthy (TransferTx Env.healthy (twoAccounts 100 50) ⟨1, 2, 30⟩).2
      ⟨2, 1, 30⟩).1.1.ToAccount = ⟨1, "alice", 100, "USD"⟩) ∧
    (balanceOf (TransferTx Env.healthy
        (TransferTx Env.healthy (twoAccounts 100 50) ⟨1, 2, 30⟩).2
        ⟨2, 1, 30⟩).2.tables.accounts 1
      = balanceOf (twoAccounts 100 50).tables.accounts 1 ∧
    balanceOf (TransferTx Env.healthy
        (TransferTx Env.healthy (twoAccounts 100 50) ⟨1, 2, 30⟩).2
        ⟨2, 1, 30⟩).2.tables.accounts 2
      = balanceOf (twoAccounts 100 50).tables.accounts 2) :=
  ⟨by decide, by decide, by decide,
    round_trip Env.healthy Env.healthy (twoAccounts 100 50) 1 2 30
      (by decide) (by decide) (by decide) (by decide) (by decide)⟩

/-! ## Conservation of money -/

/-- C10: for every ledger state (balances in the `int64` range), every `from` and `to`
(the unvalidated case `from = to` included) and every `int64` amount, a successful
`TransferTx` leaves the balance of every account other than `from` and `to` unchanged
and leaves the sum of all account balances unchanged, in exact integer arithmetic; when
`from = to` the committed balance of that account equals its balance before the call. -/
theorem conservation (env : Env) (db : DB) (arg : CreateTransferParams)
    (hamt : isInt64 arg.Amount)
    (hbal : ∀ acct ∈ db.tables.accounts, isInt64 acct.Balance)
    (hok : (TransferTx env db arg).1.2 = none) :
    (∀ j, j ≠ arg.FromAccountID → j ≠ arg.ToAccountID →
      balanceOf (TransferTx env db arg).2.tables.accounts j
        = balanceOf db.tables.accounts j) ∧
    totalBalance (TransferTx env db arg).2.tables.accounts
      = totalBalance db.tables.accounts ∧
    (arg.FromAccountID = arg.ToAccountID →
      balanceOf (TransferTx env db arg).2.tables.accounts arg.FromAccountID
        = balanceOf db.tables.accounts arg.FromAccountID) := by
  obtain ⟨a1, acc1, a2, acc2, hadj1, hadj2, _, _, _, htab, _⟩ := TransferTx_success hok
  obtain ⟨_, _, hother, htotal, hsame⟩ := adjust_two hadj1 hadj2
  have hmin : minInt64 < arg.Amount :=
    lt_of_le_of_ne hamt.1 (Ne.symm (TransferTx_amount_ne_min hbal hok))
  have hneg : neg64 arg.Amount = -arg.Amount := neg64_eq_neg hmin hamt.2
  rw [htab]
  by_cases hlt : arg.FromAccountID < arg.ToAccountID
  · simp only [firstAdjustment, secondAdjustment, if_pos hlt, hneg] at hother htotal hsame
    refine ⟨fun j hf ht => hother j hf ht, ?_, ?_⟩
    · show totalBalance acc2 = _
      rw [htotal]; ring
    · intro heq
      exact absurd heq (ne_of_lt hlt)
  · simp only [firstAdjustment, secondAdjustment, if_neg hlt, hneg] at hother htotal hsame
    refine ⟨fun j hf ht => hother j ht hf, ?_, ?_⟩
    · show totalBalance acc2 = _
      rw [htotal]; ring
    · intro heq
      obtain ⟨b, hb1, hb2⟩ := hsame heq.symm
      show balanceOf acc2 _ = _
      rw [heq, hb1, hb2]
      congr 1; ring

/-- Witness of C10: the transfer of 30 from account 1 to itself leaves its balance and
the sum of the balances as they were; so does the transfer of 30 from account 1 to
account 2 for the sum. -/
theorem conservation_witness :
    (TransferTx Env.healthy (twoAccounts 100 50) ⟨1, 1, 30⟩).1.2 = none ∧
    totalBalance (TransferTx Env.healthy (twoAccounts 100 50) ⟨1, 1, 30⟩).2.tables.accounts
      = totalBalance (twoAccounts 100 50).tables.accounts ∧
    balanceOf (TransferTx Env.healthy (twoAccounts 100 50) ⟨1, 1, 30⟩).2.tables.accounts 1
      = balanceOf (twoAccounts 100 50).tables.accounts 1 ∧
    totalBalance (TransferTx Env.healthy (twoAccounts 100 50) ⟨1, 2, 30⟩).2.tables.accounts
      = totalBalance (twoAccounts 100 50).tables.accounts :=
  have h := conservation Env.healthy (twoAccounts 100 50) ⟨1, 1, 30⟩
    (by decide) (by decide) (by decide)
  have h' := conservation Env.healthy (twoAccounts 100 50) ⟨1, 2, 30⟩
    (by decide) (by decide) (by decide)
  ⟨by decide, h.2.1, h.2.2 rfl, h'.2.1⟩

/-- The transfer of the least `int64` from account 1 (balance 100) to account 2 is
rejected by the store at the first adjustment, which would leave a negative balance;
`TransferTx` returns that error and the tables are unchanged. -/
theorem transfer_minInt64_rejected :
    (TransferTx Env.healthy (twoAccounts 100 50) ⟨1, 2, minInt64⟩).1.2
      = some ErrNegativeBalance ∧
    (TransferTx Env.healthy (twoAccounts 100 50) ⟨1, 2, minInt64⟩).2.tables
      = (twoAccounts 100 50).tables := by
  decide

end SimpleBank
